import Mathlib

/-!
Verification of the Brightspace MCP resilient API request pipeline
(`brightspace_mcp/brightspace.py`): response classification, the retry loop
of `request`, the token refresh sub-protocol, the version-fallback
dispatcher, and the bookmark pagination walker.

The HTTP transport is modelled as an oracle: the i-th network attempt (or
the i-th token-refresh call) is a value supplied by a function of i.  JSON
documents are modelled by an inductive `Json` type, with numeric payloads
modelled as integers.
-/

namespace BrightspaceMCP

/-- Model of a parsed JSON document (numbers modelled as integers). -/
inductive Json where
  | null : Json
  | bool (b : Bool) : Json
  | num (n : Int) : Json
  | str (s : String) : Json
  | arr (xs : List Json) : Json
  | obj (fields : List (String × Json)) : Json

/-- Python truthiness of a JSON value (`None`, `False`, `0`, `""`, `[]` and
the empty dict are falsy). -/
def jsonTruthy : Json → Bool
  | .null => false
  | .bool b => b
  | .num n => decide (n ≠ 0)
  | .str s => decide (s ≠ "")
  | .arr [] => false
  | .arr (_ :: _) => true
  | .obj [] => false
  | .obj (_ :: _) => true

/-- Python `d.get(k)` on a parsed JSON object: the value under key `k`, or
null when the key is missing or the value is not an object. -/
def dget (j : Json) (k : String) : Json :=
  match j with
  | .obj fs => (((fs.find? fun p => p.1 == k)).map (·.2)).getD .null
  | _ => .null

/-- Python `a or b`: the first operand when truthy, otherwise the second. -/
def jor (a b : Json) : Json :=
  if jsonTruthy a then a else b

/-- Whether a JSON value is an object (Python `isinstance(data, dict)`). -/
def Json.isObj : Json → Bool
  | .obj _ => true
  | _ => false

/-- Python `s.startswith(p)`. -/
def strStartsWith (s p : String) : Bool :=
  p.toList.isPrefixOf s.toList

/-- Whether the first character list occurs contiguously inside the second. -/
def charsContain (n : List Char) : List Char → Bool
  | [] => n.isEmpty
  | c :: rest => n.isPrefixOf (c :: rest) || charsContain n rest

/-- Python `needle in hay` on strings: substring containment. -/
def strIn (needle hay : String) : Bool :=
  charsContain needle.toList hay.toList

/-- Lower-casing of a string, character by character. -/
def strLower (s : String) : String := String.mk (s.toList.map Char.toLower)

/-- Case-insensitive header lookup, modelling `httpx.Headers.get`. -/
def hGet (hs : List (String × String)) (k : String) : Option String :=
  (hs.find? fun p => strLower p.1 == strLower k).map (·.2)

/-- The base64 alphabet. -/
def b64Alphabet : List Char :=
  "ABCDEFGHIJKLMNOPQRSTUVWXYZabcdefghijklmnopqrstuvwxyz0123456789+/".toList

/-- The base64 digit for a 6-bit value. -/
def b64CharAt (n : Nat) : Char := b64Alphabet.getD n 'A'

/-- Base64-encode a byte list three bytes at a time, with `=` padding. -/
def b64Groups : List Nat → List Char
  | [] => []
  | [a] =>
    let n := (a % 256) * 65536
    [b64CharAt (n / 262144), b64CharAt (n / 4096 % 64), '=', '=']
  | [a, b] =>
    let n := (a % 256) * 65536 + (b % 256) * 256
    [b64CharAt (n / 262144), b64CharAt (n / 4096 % 64), b64CharAt (n / 64 % 64), '=']
  | a :: b :: c :: rest =>
    let n := (a % 256) * 65536 + (b % 256) * 256 + (c % 256)
    b64CharAt (n / 262144) :: b64CharAt (n / 4096 % 64) :: b64CharAt (n / 64 % 64)
      :: b64CharAt (n % 64) :: b64Groups rest

/-- Model of `base64.b64encode(content).decode("ascii")`. -/
def b64encode (bytes : List Nat) : String := String.mk (b64Groups bytes)

/-- The body of a classified response envelope: parsed structured data, raw
text, or base64-encoded binary. -/
inductive Body where
  | structured (j : Json) : Body
  | text (s : String) : Body
  | b64 (s : String) : Body

/-- A completed HTTP response as seen by `request`: status code, headers,
the result of `r.json()` (none when the body is not valid JSON), the raw
text, and the raw bytes. -/
structure HResp where
  status : Nat
  headers : List (String × String)
  jsonBody : Option Json
  text : String
  content : List Nat

/-- The content-type of a response (empty string when the header is absent). -/
def ctypeOf (r : HResp) : String := (hGet r.headers "content-type").getD ""

/-- Response-body classification at the end of `request`: parse JSON when the
content type contains "application/json" (in both the `expect_json` and the
not-`expect_json` branch), raw text for textual content types, base64 text
otherwise.  Returns none when `r.json()` would raise on an invalid body. -/
def classifyBody (expectJson : Bool) (r : HResp) : Option Body :=
  if expectJson && strIn "application/json" (ctypeOf r) then
    r.jsonBody.map .structured
  else if strIn "application/json" (ctypeOf r) then
    r.jsonBody.map .structured
  else if strIn "text/" (ctypeOf r) then
    some (.text r.text)
  else
    some (.b64 (b64encode r.content))

/-- The 429 backoff delay: `Retry-After` when present, non-empty and
parseable as a float (parsing of `float(ra)` is supplied as an oracle),
else the default of 1.0 second. -/
def retryDelay (parse : String → Option Rat) (ra : Option String) : Rat :=
  match ra with
  | none => 1
  | some s => if s = "" then 1 else (parse s).getD 1

/-- Python `list.extend(items)` on the accumulated item list: arrays append
their elements, strings their one-character substrings, dicts their keys;
non-iterable values (numbers, booleans, None) raise a TypeError, modelled
as none. -/
def extendList (acc : List Json) : Json → Option (List Json)
  | .arr xs => some (acc ++ xs)
  | .str s => some (acc ++ s.toList.map fun c => .str (String.mk [c]))
  | .obj fs => some (acc ++ fs.map fun p => .str p.1)
  | _ => none

/-- Result of `paginate_bookmark`: normal completion with status 200,
accumulated items, the truthy cursors seen and the last cursor value, or
early termination with the failing page's status and raw body. -/
inductive PagResult where
  | done (status : Nat) (items : List Json) (bms : List Json) (lastBm : Json) : PagResult
  | early (status : Nat) (data : Json) : PagResult

/-- The loop of `paginate_bookmark`.  `pages i` is the (status, body) pair
returned by the i-th call to `request` (the request pipeline is abstracted
as this oracle); `fuel` is the number of loop iterations left
(`range(max_pages)`).  The extra `Nat` in the result counts page requests
issued; none models the TypeError of extending by a non-iterable. -/
def paginateLoop (pages : Nat → Nat × Json) :
    Nat → Nat → List Json → List Json → Json → Option (PagResult × Nat)
  | 0, idx, merged, bms, bm => some (.done 200 merged bms bm, idx)
  | fuel+1, idx, merged, bms, _ =>
    let code := (pages idx).1
    let data := (pages idx).2
    if 400 ≤ code || !data.isObj then some (.early code data, idx + 1)
    else
      match extendList merged (jor (dget data "Items") (jor (dget data "items") (.arr []))) with
      | none => none
      | some merged2 =>
        let bm2 := jor (dget data "Bookmark") (jor (dget data "Next") (dget data "bookmark"))
        let bms2 := if jsonTruthy bm2 then bms ++ [bm2] else bms
        if jsonTruthy bm2 then paginateLoop pages fuel (idx + 1) merged2 bms2 bm2
        else some (.done 200 merged2 bms2 bm2, idx + 1)

/-- Model of `paginate_bookmark`: walk pages from an empty accumulator and a
null cursor, for at most `maxPages` iterations. -/
def paginate_bookmark (pages : Nat → Nat × Json) (maxPages : Int) : Option (PagResult × Nat) :=
  paginateLoop pages maxPages.toNat 0 [] [] .null

/-- Session fields relevant to the version-fallback dispatcher: the two
configured default versions and the two candidate lists (the parsed
`BS_LP_VERSION_CANDIDATES` and `BS_LE_VERSION_CANDIDATES` environment
lists, defaulting to the single default version). -/
structure Session where
  lpVersion : String
  leVersion : String
  lpVersions : List String
  leVersions : List String

/-- The family's configured default version (`self.lp_version` for "lp",
else `self.le_version`). -/
def prefOf (s : Session) (service : String) : String :=
  if service = "lp" then s.lpVersion else s.leVersion

/-- The family's environment-supplied candidate list. -/
def envCandsOf (s : Session) (service : String) : List String :=
  if service = "lp" then s.lpVersions else s.leVersions

/-- Python `versions or (self.lp_versions if ... else self.le_versions)`:
the explicit argument when it is a non-empty list, else the session list. -/
def resolveVersions (versions : Option (List String)) (envCands : List String) : List String :=
  match versions with
  | some l => if l = [] then envCands else l
  | none => envCands

/-- The de-duplication loop of `_request_with_version_fallback`: keep the
first occurrence of each version, tracking the `seen` set. -/
def dedupeLoop (seen : List String) : List String → List String
  | [] => []
  | v :: rest =>
    if v ∈ seen then dedupeLoop seen rest
    else v :: dedupeLoop (v :: seen) rest

/-- Candidate construction of `_request_with_version_fallback`: insert the
configured default at the front only when it does not already occur in the
supplied list, then de-duplicate preserving first-seen order. -/
def fallbackCandidates (preferred : String) (supplied : List String) : List String :=
  dedupeLoop [] (if preferred ∈ supplied then supplied else preferred :: supplied)

/-- Candidate order as the spec's words describe it (for comparison with
`fallbackCandidates`): the configured default version first regardless of
its position in the supplied list, then the remaining supplied candidates
in first-seen order with duplicates removed. -/
def specCandidateOrder (preferred : String) (supplied : List String) : List String :=
  preferred :: dedupeLoop [preferred] supplied

/-- A `(status, body, headers)` triple as returned by `request`. -/
abbrev Triple : Type := Nat × Json × List (String × String)

/-- Model of `build_path`: the version argument, or the family default when
absent; the tail is normalized to start with a slash. -/
def build_path (s : Session) (service : String) (version : Option String) (tail : String) : String :=
  let ver := version.getD (prefOf s service)
  let t := if strStartsWith tail "/" then tail else "/" ++ tail
  "/d2l/api/" ++ service ++ "/" ++ ver ++ t

/-- The per-version request issued by the dispatcher: `request` (abstracted
as the oracle `req` from paths to result triples) on the path built for the
candidate version. -/
def dispatchReq (s : Session) (service tail : String) (req : String → Triple)
    (v : String) : Triple :=
  req (build_path s service (some v) tail)

/-- The loop of `_request_with_version_fallback`: walk the candidate list,
remembering the last triple; advance on status 404 or 410, return
immediately on any other status; after exhaustion return the remembered
last triple (none only when the list was empty and no last triple exists,
modelling the assert).  The second component lists the versions tried. -/
def fallbackLoop (req : String → Triple) :
    List String → Option Triple → Option Triple × List String
  | [], last => (last, [])
  | v :: rest, _ =>
    let t := req v
    if t.1 = 404 ∨ t.1 = 410 then
      let r := fallbackLoop req rest (some t)
      (r.1, v :: r.2)
    else (some t, [v])

/-- Model of `_request_with_version_fallback`. -/
def request_with_version_fallback (s : Session) (service tail : String)
    (versions : Option (List String)) (req : String → Triple) :
    Option Triple × List String :=
  fallbackLoop (dispatchReq s service tail req)
    (fallbackCandidates (prefOf s service) (resolveVersions versions (envCandsOf s service)))
    none

/-- Python `s.rstrip("/")`: drop trailing slash characters. -/
def rstripSlash (s : String) : String :=
  String.mk ((s.toList.reverse.dropWhile (· = '/')).reverse)

/-- The candidate token endpoints of `_refresh_access_token`, in priority
order: the `BS_TOKEN_URL` override when set and non-empty, then the two
tenant-local endpoints, then the global BAS endpoint. -/
def tokenCandidates (override : Option String) (baseUrl : String) : List String :=
  (match override with
   | some s => if s = "" then [] else [s]
   | none => []) ++
  [rstripSlash baseUrl ++ "/d2l/oauth2/token",
   rstripSlash baseUrl ++ "/d2l/auth/api/token",
   "https://auth.brightspace.com/core/connect/token"]

/-- Outcome of one POST to a token endpoint: a transport error
(`httpx.RequestError`) or a completed response with status, content type,
parsed JSON body (none when `r.json()` would raise) and raw text. -/
inductive TokenAttempt where
  | err (m : String) : TokenAttempt
  | resp (status : Nat) (ctype : String) (jsonBody : Option Json) (text : String) : TokenAttempt

/-- Body computation of `_refresh_access_token`: the parsed JSON when the
content type contains "application/json" (falling back to the raw text when
parsing raises), else the raw text. -/
def respBody (ctype : String) (jsonBody : Option Json) (text : String) : Json ⊕ String :=
  if strIn "application/json" ctype then
    match jsonBody with
    | some j => .inl j
    | none => .inr text
  else .inr text

/-- Python `isinstance(body, dict) and "access_token" in body`. -/
def hasAccessToken : Json ⊕ String → Bool
  | .inl (.obj fs) => fs.any fun p => p.1 == "access_token"
  | _ => false

/-- Python `body["access_token"]` on an accepted body. -/
def accessTokenOf : Json ⊕ String → Json
  | .inl (.obj fs) => (((fs.find? fun p => p.1 == "access_token")).map (·.2)).getD .null
  | _ => .null

/-- The last-error notes recorded by `_refresh_access_token` (structured
stand-ins for the formatted strings of the source). -/
inductive RefreshErr where
  | requestError (m : String) : RefreshErr
  | statusAt (code : Nat) (url : String) : RefreshErr
  | badRequest (url : String) (body : Json ⊕ String) : RefreshErr
  | otherStatus (code : Nat) (url : String) (body : Json ⊕ String) : RefreshErr

/-- Result of the refresh sub-protocol: a new access token value, or the
`httpx.HTTPStatusError` raise carrying the last recorded error. -/
inductive RefreshRes where
  | ok (v : Json) : RefreshRes
  | failed (lastErr : Option RefreshErr) : RefreshRes

/-- The candidate loop of `_refresh_access_token`.  `net i` is the outcome
of the i-th POST; the loop threads the attempt index, the last recorded
error, and the cached access token (updated only on acceptance).  Returns
the result, the cached token after the call, and the number of POSTs
issued. -/
def refreshLoop (net : Nat → TokenAttempt) :
    List String → Nat → Option RefreshErr → Json → RefreshRes × Json × Nat
  | [], i, lastErr, tok => (.failed lastErr, tok, i)
  | url :: rest, i, _, tok =>
    match net i with
    | .err m => refreshLoop net rest (i + 1) (some (.requestError m)) tok
    | .resp st ct jb tx =>
      let body := respBody ct jb tx
      if st = 200 ∧ hasAccessToken body then
        (.ok (accessTokenOf body), accessTokenOf body, i + 1)
      else if st = 404 ∨ st = 410 ∨ st = 302 then
        refreshLoop net rest (i + 1) (some (.statusAt st url)) tok
      else if st = 400 then
        (.failed (some (.badRequest url body)), tok, i + 1)
      else
        refreshLoop net rest (i + 1) (some (.otherStatus st url body)) tok

/-- Model of `_refresh_access_token`, starting from the cached token
`tok0`. -/
def refresh_access_token (net : Nat → TokenAttempt) (override : Option String)
    (baseUrl : String) (tok0 : Json) : RefreshRes × Json × Nat :=
  refreshLoop net (tokenCandidates override baseUrl) 0 none tok0

/-- Whether a token attempt is accepted: HTTP 200 with a structured body
containing an access-token field. -/
def isAccept : TokenAttempt → Bool
  | .err _ => false
  | .resp st ct jb tx => st == 200 && hasAccessToken (respBody ct jb tx)

/-- Whether a token attempt stops the candidate loop as a definitive
rejection: HTTP 400. -/
def isStop400 : TokenAttempt → Bool
  | .err _ => false
  | .resp st _ _ _ => st == 400

/-- The token value adopted from an accepted attempt. -/
def acceptVal : TokenAttempt → Json
  | .err _ => .null
  | .resp _ ct jb tx => accessTokenOf (respBody ct jb tx)

/-- The last-error note an advancing attempt records for candidate `url`. -/
def advErr (url : String) : TokenAttempt → RefreshErr
  | .err m => .requestError m
  | .resp st ct jb tx =>
    if st = 404 ∨ st = 410 ∨ st = 302 then .statusAt st url
    else .otherStatus st url (respBody ct jb tx)

/-- An attempt on which the loop advances to the next candidate: neither
accepted nor a definitive 400 rejection. -/
def advances (a : TokenAttempt) : Prop :=
  isAccept a = false ∧ isStop400 a = false

/-- Outcome of one HTTP attempt inside `request`: a transport error caught
by the `except httpx.RequestError` clause, or a completed response. -/
inductive Attempt where
  | err (m : String) : Attempt
  | resp (r : HResp) : Attempt

/-- Result of a `request` call: the returned triple, a re-raised transport
error, a propagated refresh failure (`httpx.HTTPStatusError`), a raise from
`r.json()` on an undecodable body, the trailing `RuntimeError`, or the
`ValueError` for a path that does not start with a slash. -/
inductive ReqOutcome where
  | ok (t : Nat × Body × List (String × String)) : ReqOutcome
  | transport (m : String) : ReqOutcome
  | authFailed : ReqOutcome
  | jsonError : ReqOutcome
  | internal : ReqOutcome
  | invalidArg : ReqOutcome

/-- Observable side effects of the retry loop: a token refresh, or a
`time.sleep` of the given number of seconds. -/
inductive Event where
  | refreshed : Event
  | slept (d : Rat) : Event

/-- Environment of a `request` call: the network oracle for successive
attempts, the refresh oracle for successive `_refresh_access_token` calls
(none models a refresh failure raise), the `float()` parser, the
`expect_json` flag and `max_retries`. -/
structure ReqEnv where
  net : Nat → Attempt
  refresh : Nat → Option Json
  parse : String → Option Rat
  expectJson : Bool
  maxRetries : Int

/-- The `_auth_headers` step: refresh when the cached token is falsy.
Returns the token to use, the next refresh index and the extended event
log, or none when the refresh raises. -/
def authStep (env : ReqEnv) (rN : Nat) (token : Json) (log : List Event) :
    Option (Json × Nat × List Event) :=
  if jsonTruthy token then some (token, rN, log)
  else
    match env.refresh rN with
    | none => none
    | some v => some (v, rN + 1, log ++ [.refreshed])

/-- The retry loop of `request`.  `fuel` is the number of remaining loop
iterations (`max_retries - retries + 1`); the guard `retries < max_retries`
of the 401/429 branches becomes `1 ≤ fuel`.  Arguments: fuel, attempt
index, refresh index, cached token, `last_exc`, event log.  Returns the
outcome, the event log and the number of HTTP attempts issued. -/
def reqLoop (env : ReqEnv) :
    Nat → Nat → Nat → Json → Option String → List Event →
    ReqOutcome × List Event × Nat
  | 0, aN, _, _, lastExc, log =>
    (match lastExc with
     | some m => .transport m
     | none => .internal, log, aN)
  | fuel+1, aN, rN, token, lastExc, log =>
    match authStep env rN token log with
    | none => (.authFailed, log, aN)
    | some (tok1, rN1, log1) =>
      match env.net aN with
      | .err m => reqLoop env fuel (aN + 1) rN1 tok1 (some m) log1
      | .resp r =>
        if r.status = 401 ∧ 1 ≤ fuel then
          match env.refresh rN1 with
          | none => (.authFailed, log1, aN + 1)
          | some v => reqLoop env fuel (aN + 1) (rN1 + 1) v lastExc (log1 ++ [.refreshed])
        else if r.status = 429 ∧ 1 ≤ fuel then
          reqLoop env fuel (aN + 1) rN1 tok1 lastExc
            (log1 ++ [.slept (retryDelay env.parse (hGet r.headers "Retry-After"))])
        else
          match classifyBody env.expectJson r with
          | some b => (.ok (r.status, b, r.headers), log1, aN + 1)
          | none => (.jsonError, log1, aN + 1)

/-- Model of `request`: reject paths that do not start with a slash before
any network traffic, else run the retry loop with `max_retries + 1`
available iterations (negative `max_retries` skips the loop entirely). -/
def request (env : ReqEnv) (path : String) (token0 : Json) :
    ReqOutcome × List Event × Nat :=
  if strStartsWith path "/" then
    reqLoop env (env.maxRetries + 1).toNat 0 0 token0 none []
  else (.invalidArg, [], 0)

/-! Helper lemmas about the version-fallback loop and de-duplication. -/

lemma dedupeLoop_nodup_and_fresh (l : List String) :
    ∀ seen : List String, (dedupeLoop seen l).Nodup ∧ ∀ x ∈ dedupeLoop seen l, x ∉ seen := by
  induction l with
  | nil => intro seen; simp [dedupeLoop]
  | cons v rest ih =>
    intro seen
    by_cases hv : v ∈ seen
    · simp only [dedupeLoop, if_pos hv]
      exact ih seen
    · simp only [dedupeLoop, if_neg hv]
      refine ⟨List.nodup_cons.mpr ⟨fun hmem => ?_, (ih (v :: seen)).1⟩, ?_⟩
      · exact (ih (v :: seen)).2 v hmem (List.mem_cons_self v seen)
      · intro x hx
        rcases List.mem_cons.mp hx with h | h
        · exact h ▸ hv
        · intro hxseen
          exact (ih (v :: seen)).2 x h (List.mem_cons_of_mem v hxseen)

lemma fallbackLoop_cons (req : String → Triple) (v : String) (rest : List String)
    (last : Option Triple) :
    fallbackLoop req (v :: rest) last =
      if (req v).1 = 404 ∨ (req v).1 = 410 then
        ((fallbackLoop req rest (some (req v))).1, v :: (fallbackLoop req rest (some (req v))).2)
      else (some (req v), [v]) := rfl

lemma fallbackLoop_stop (req : String → Triple) :
    ∀ (pre : List String) (u : String) (rest : List String) (last : Option Triple),
    (∀ v ∈ pre, (req v).1 = 404 ∨ (req v).1 = 410) →
    ¬((req u).1 = 404 ∨ (req u).1 = 410) →
    fallbackLoop req (pre ++ u :: rest) last = (some (req u), pre ++ [u]) := by
  intro pre
  induction pre with
  | nil =>
    intro u rest last _ hu
    simp [fallbackLoop, if_neg hu]
  | cons v vs ih =>
    intro u rest last hall hu
    have h4 : (req v).1 = 404 ∨ (req v).1 = 410 := hall v (List.mem_cons_self v vs)
    have hrec := ih u rest (some (req v)) (fun x hx => hall x (List.mem_cons_of_mem v hx)) hu
    rw [List.cons_append, fallbackLoop_cons, if_pos h4, hrec]
    simp

lemma fallbackLoop_exhaust (req : String → Triple) :
    ∀ (urls : List String) (last : Option Triple) (h : urls ≠ []),
    (∀ v ∈ urls, (req v).1 = 404 ∨ (req v).1 = 410) →
    fallbackLoop req urls last = (some (req (urls.getLast h)), urls) := by
  intro urls
  induction urls with
  | nil => intro _ h; exact absurd rfl h
  | cons v rest ih =>
    intro last h hall
    have h4 : (req v).1 = 404 ∨ (req v).1 = 410 := hall v (List.mem_cons_self v rest)
    cases rest with
    | nil => rw [fallbackLoop_cons, if_pos h4]; rfl
    | cons w rs =>
      have hrec := ih (some (req v)) (by simp)
        (fun x hx => hall x (List.mem_cons_of_mem v hx))
      rw [fallbackLoop_cons, if_pos h4, hrec]
      simp [List.getLast_cons]

lemma fallbackLoop_tried_all (req : String → Triple) :
    ∀ (urls : List String) (last : Option Triple),
    (∀ v ∈ urls, (req v).1 = 404 ∨ (req v).1 = 410) →
    (fallbackLoop req urls last).2 = urls := by
  intro urls
  induction urls with
  | nil => intro last _; rfl
  | cons v rest ih =>
    intro last hall
    have h4 : (req v).1 = 404 ∨ (req v).1 = 410 := hall v (List.mem_cons_self v rest)
    have hrec := ih (some (req v)) (fun x hx => hall x (List.mem_cons_of_mem v hx))
    rw [fallbackLoop_cons, if_pos h4]
    simpa using hrec

/-- Session matching the repository's own unit test: `le_version` "1.74"
with candidate list 1.80, 1.74, 1.70. -/
def c1session : Session := ⟨"1.46", "1.74", ["1.46"], ["1.80", "1.74", "1.70"]⟩

/-- C1, counterexample.  With supplied candidates 1.80, 1.74, 1.70 and the
configured default 1.74, the dispatcher (against an all-404 backend) tries
1.80 first — the supplied order — whereas the claim's order puts the
configured default 1.74 first regardless of its position.  This matches the
repository's own test `test_version_fallback_order`. -/
theorem C1_counterexample :
    (request_with_version_fallback c1session "le" "/123/grades/" (some ["1.80", "1.74", "1.70"])
        (fun _ => (404, Json.null, []))).2 = ["1.80", "1.74", "1.70"] ∧
    specCandidateOrder "1.74" ["1.80", "1.74", "1.70"] = ["1.74", "1.80", "1.70"] ∧
    (["1.80", "1.74", "1.70"] : List String) ≠ ["1.74", "1.80", "1.70"] :=
  ⟨rfl, rfl, by decide⟩

/-- C1, amended: the dispatcher tries the de-duplicated supplied candidates
in first-seen order, with the family's configured default inserted at the
front only when it does not already occur in the supplied list (when it
does occur, its supplied position is kept); duplicates are removed and,
while every response is a 404/410, the candidates are tried strictly in
that order. -/
theorem C1_candidate_order :
    (∀ preferred supplied, preferred ∈ supplied →
        fallbackCandidates preferred supplied = dedupeLoop [] supplied) ∧
    (∀ preferred supplied, preferred ∉ supplied →
        fallbackCandidates preferred supplied = preferred :: dedupeLoop [preferred] supplied) ∧
    (∀ preferred supplied, (fallbackCandidates preferred supplied).Nodup) ∧
    (∀ s service tail versions (req : String → Triple),
        (∀ p, (req p).1 = 404 ∨ (req p).1 = 410) →
        (request_with_version_fallback s service tail versions req).2 =
          fallbackCandidates (prefOf s service)
            (resolveVersions versions (envCandsOf s service))) := by
  refine ⟨?_, ?_, ?_, ?_⟩
  · intro preferred supplied h
    simp [fallbackCandidates, if_pos h]
  · intro preferred supplied h
    simp [fallbackCandidates, if_neg h, dedupeLoop]
  · intro preferred supplied
    by_cases h : preferred ∈ supplied
    · simpa [fallbackCandidates, if_pos h] using (dedupeLoop_nodup_and_fresh supplied []).1
    · simpa [fallbackCandidates, if_neg h] using
        (dedupeLoop_nodup_and_fresh (preferred :: supplied) []).1
  · intro s service tail versions req hall
    exact fallbackLoop_tried_all _ _ none (fun v _ => hall _)

/-- C1, witness for the amended theorem at concrete inputs: the default
1.74 already occurs in the supplied list, so the tried order keeps the
supplied order; and a default absent from the supplied list is put first. -/
theorem C1_witness :
    fallbackCandidates "1.74" ["1.80", "1.74", "1.70"] = ["1.80", "1.74", "1.70"] ∧
    fallbackCandidates "1.46" ["1.80"] = ["1.46", "1.80"] ∧
    (request_with_version_fallback c1session "le" "/123/grades/" (some ["1.80", "1.74", "1.70"])
        (fun _ => (410, Json.null, []))).2 = ["1.80", "1.74", "1.70"] :=
  ⟨C1_candidate_order.1 "1.74" ["1.80", "1.74", "1.70"] (by decide),
   C1_candidate_order.2.1 "1.46" ["1.80"] (by decide),
   C1_candidate_order.2.2.2 c1session "le" "/123/grades/" (some ["1.80", "1.74", "1.70"])
     (fun _ => (410, Json.null, [])) (fun _ => Or.inr rfl)⟩

/-- C4: the dispatcher advances to the next candidate exactly on status 404
or 410, returns the first other result immediately without trying further
candidates, and when every candidate yields 404/410 returns the last
attempt's triple; `_request_with_version_fallback` is this loop over the
de-duplicated candidate list. -/
theorem C4_fallback_semantics :
    (∀ (req : String → Triple) (pre : List String) (u : String) (rest : List String)
        (last : Option Triple),
        (∀ v ∈ pre, (req v).1 = 404 ∨ (req v).1 = 410) →
        ¬((req u).1 = 404 ∨ (req u).1 = 410) →
        fallbackLoop req (pre ++ u :: rest) last = (some (req u), pre ++ [u])) ∧
    (∀ (req : String → Triple) (urls : List String) (last : Option Triple) (h : urls ≠ []),
        (∀ v ∈ urls, (req v).1 = 404 ∨ (req v).1 = 410) →
        fallbackLoop req urls last = (some (req (urls.getLast h)), urls)) ∧
    (∀ s service tail versions req,
        request_with_version_fallback s service tail versions req =
          fallbackLoop (dispatchReq s service tail req)
            (fallbackCandidates (prefOf s service)
              (resolveVersions versions (envCandsOf s service))) none) :=
  ⟨fallbackLoop_stop, fallbackLoop_exhaust, fun _ _ _ _ _ => rfl⟩

/-- Backend for the C4 witness: version 1.80 is missing (404), any other
version answers 200. -/
def c4req : String → Triple :=
  fun v => if v = "1.80" then (404, Json.null, []) else (200, Json.obj [("ok", Json.bool true)], [])

/-- C4, witness: a 404 advances past 1.80, the 200 at 1.74 is returned
immediately and 1.70 is never tried; an all-404 run returns the last 404. -/
theorem C4_witness :
    fallbackLoop c4req (["1.80"] ++ "1.74" :: ["1.70"]) none =
      (some (c4req "1.74"), ["1.80"] ++ ["1.74"]) ∧
    fallbackLoop (fun _ => ((404, Json.null, []) : Triple)) ["1.80", "1.74"] none =
      (some ((404, Json.null, []) : Triple), ["1.80", "1.74"]) :=
  ⟨C4_fallback_semantics.1 c4req ["1.80"] "1.74" ["1.70"] none (by decide) (by decide),
   C4_fallback_semantics.2.1 (fun _ => ((404, Json.null, []) : Triple)) ["1.80", "1.74"] none
     (by decide) (by decide)⟩

/-- C8: a path that does not start with the slash root marker fails with
the `ValueError` before any network attempt and any refresh: no events are
logged and zero attempts are issued. -/
theorem C8_invalid_path (env : ReqEnv) (path : String) (tok0 : Json)
    (h : strStartsWith path "/" = false) :
    request env path tok0 = (.invalidArg, [], 0) := by
  simp [request, h]

/-- Environment for the C8 witness (its oracles are never consulted). -/
def c8env : ReqEnv := ⟨fun _ => .err "unreachable", fun _ => none, fun _ => none, true, 3⟩

/-- C8, witness: a relative path is rejected with no network call. -/
theorem C8_witness : request c8env "users/whoami" (.str "t") = (.invalidArg, [], 0) :=
  C8_invalid_path c8env "users/whoami" (.str "t") (by rfl)

/-- C9: response classification by content type — a content type containing
"application/json" yields the parsed structured data regardless of the
`expect_json` flag, else a textual content type yields the raw text, else
the raw bytes are returned base64-encoded. -/
theorem C9_classification :
    ∀ (ej : Bool) (r : HResp) (j : Json),
      (strIn "application/json" (ctypeOf r) = true → r.jsonBody = some j →
        classifyBody ej r = some (.structured j)) ∧
      (strIn "application/json" (ctypeOf r) = true →
        classifyBody true r = classifyBody false r) ∧
      (strIn "application/json" (ctypeOf r) = false → strIn "text/" (ctypeOf r) = true →
        classifyBody ej r = some (.text r.text)) ∧
      (strIn "application/json" (ctypeOf r) = false → strIn "text/" (ctypeOf r) = false →
        classifyBody ej r = some (.b64 (b64encode r.content))) := by
  intro ej r j
  refine ⟨?_, ?_, ?_, ?_⟩
  · intro hct hj
    cases ej <;> simp [classifyBody, hct, hj]
  · intro hct
    simp [classifyBody, hct]
  · intro hct htxt
    cases ej <;> simp [classifyBody, hct, htxt]
  · intro hct htxt
    cases ej <;> simp [classifyBody, hct, htxt]

/-- A JSON response for the C9 witness. -/
def c9json : HResp :=
  ⟨200, [("Content-Type", "application/json; charset=utf-8")],
   some (.obj [("ok", .bool true)]), "", []⟩

/-- A textual response for the C9 witness. -/
def c9text : HResp := ⟨200, [("content-type", "text/plain")], none, "hi", []⟩

/-- A binary response for the C9 witness (bytes of "Man"). -/
def c9bin : HResp := ⟨200, [("content-type", "application/octet-stream")], none, "", [77, 97, 110]⟩

/-- C9, witness: the three classification branches at concrete responses;
the binary branch base64-encodes "Man" to "TWFu". -/
theorem C9_witness :
    classifyBody false c9json = some (.structured (.obj [("ok", .bool true)])) ∧
    classifyBody true c9text = some (.text "hi") ∧
    classifyBody true c9bin = some (.b64 "TWFu") :=
  ⟨(C9_classification false c9json (.obj [("ok", .bool true)])).1 (by rfl) rfl,
   (C9_classification true c9text .null).2.2.1 (by rfl) (by rfl),
   (C9_classification true c9bin .null).2.2.2 (by rfl) (by rfl)⟩

/-! Pagination: scripted pages and the accumulation lemma. -/

/-- Description of one well-formed page served to the walker: its status,
the casing of the items key, the served items and the served cursor
value. -/
structure PageScript where
  code : Nat
  key : String
  items : List Json
  bm : Json

/-- The JSON body a scripted page serves. -/
def pageBody (p : PageScript) : Json :=
  .obj [(p.key, .arr p.items), ("Bookmark", p.bm)]

/-- A page with a non-error status and one of the two item-key casings. -/
def goodPage (p : PageScript) : Prop :=
  p.code < 400 ∧ (p.key = "Items" ∨ p.key = "items")

lemma paginateLoop_succ (pages : Nat → Nat × Json) (fuel idx : Nat)
    (merged bms : List Json) (bm : Json) :
    paginateLoop pages (fuel + 1) idx merged bms bm =
      (if 400 ≤ (pages idx).1 || !(pages idx).2.isObj then
        some (.early (pages idx).1 (pages idx).2, idx + 1)
      else
        match extendList merged
            (jor (dget (pages idx).2 "Items") (jor (dget (pages idx).2 "items") (.arr []))) with
        | none => none
        | some merged2 =>
          let bm2 := jor (dget (pages idx).2 "Bookmark")
            (jor (dget (pages idx).2 "Next") (dget (pages idx).2 "bookmark"))
          let bms2 := if jsonTruthy bm2 then bms ++ [bm2] else bms
          if jsonTruthy bm2 then paginateLoop pages fuel (idx + 1) merged2 bms2 bm2
          else some (.done 200 merged2 bms2 bm2, idx + 1)) := rfl

lemma pageBody_extend (p : PageScript) (hk : p.key = "Items" ∨ p.key = "items")
    (merged : List Json) :
    extendList merged
      (jor (dget (pageBody p) "Items") (jor (dget (pageBody p) "items") (.arr []))) =
      some (merged ++ p.items) := by
  rcases hk with h | h
  · have h1 : dget (pageBody p) "Items" = .arr p.items := by
      simp only [pageBody, h]; rfl
    have h2 : dget (pageBody p) "items" = .null := by
      simp only [pageBody, h]; rfl
    cases hi : p.items with
    | nil => simp [h1, h2, hi, jor, jsonTruthy, extendList]
    | cons a as => simp [h1, h2, hi, jor, jsonTruthy, extendList]
  · have h1 : dget (pageBody p) "Items" = .null := by
      simp only [pageBody, h]; rfl
    have h2 : dget (pageBody p) "items" = .arr p.items := by
      simp only [pageBody, h]; rfl
    cases hi : p.items with
    | nil => simp [h1, h2, hi, jor, jsonTruthy, extendList]
    | cons a as => simp [h1, h2, hi, jor, jsonTruthy, extendList]

lemma pageBody_cursor (p : PageScript) (hk : p.key = "Items" ∨ p.key = "items") :
    jor (dget (pageBody p) "Bookmark")
      (jor (dget (pageBody p) "Next") (dget (pageBody p) "bookmark")) =
      jor p.bm .null := by
  rcases hk with h | h
  · have h1 : dget (pageBody p) "Bookmark" = p.bm := by
      simp only [pageBody, h]; rfl
    have h2 : dget (pageBody p) "Next" = .null := by
      simp only [pageBody, h]; rfl
    have h3 : dget (pageBody p) "bookmark" = .null := by
      simp only [pageBody, h]; rfl
    simp [h1, h2, h3, jor, jsonTruthy]
  · have h1 : dget (pageBody p) "Bookmark" = p.bm := by
      simp only [pageBody, h]; rfl
    have h2 : dget (pageBody p) "Next" = .null := by
      simp only [pageBody, h]; rfl
    have h3 : dget (pageBody p) "bookmark" = .null := by
      simp only [pageBody, h]; rfl
    simp [h1, h2, h3, jor, jsonTruthy]

lemma pageBody_isObj (p : PageScript) : (pageBody p).isObj = true := rfl

lemma pag_walk (pages : Nat → Nat × Json) :
    ∀ (ps : List PageScript) (fuel i0 : Nat) (merged bms : List Json) (bm : Json),
    (∀ i p, ps.get? i = some p → pages (i0 + i) = (p.code, pageBody p)) →
    (∀ p ∈ ps, goodPage p ∧ jsonTruthy p.bm = true) →
    ps.length ≤ fuel →
    paginateLoop pages fuel i0 merged bms bm =
      paginateLoop pages (fuel - ps.length) (i0 + ps.length)
        (merged ++ (ps.map PageScript.items).flatten)
        (bms ++ ps.map PageScript.bm)
        ((ps.map PageScript.bm).getLastD bm) := by
  intro ps
  induction ps with
  | nil => intro fuel i0 merged bms bm _ _ _; simp
  | cons p tail ih =>
    intro fuel i0 merged bms bm horacle hgood hfuel
    obtain ⟨⟨hcode, hkey⟩, hbm⟩ := hgood p (List.mem_cons_self p tail)
    cases fuel with
    | zero => simp at hfuel
    | succ f =>
      have hp0 : pages (i0 + 0) = (p.code, pageBody p) := horacle 0 p rfl
      rw [Nat.add_zero] at hp0
      have hg : (decide (400 ≤ (pages i0).1) || !(pages i0).2.isObj) = false := by
        rw [hp0]; simp [pageBody_isObj, Nat.not_le_of_lt hcode]
      have hcur : jor (dget (pages i0).2 "Bookmark")
          (jor (dget (pages i0).2 "Next") (dget (pages i0).2 "bookmark")) = p.bm := by
        rw [hp0]
        simp only []
        rw [pageBody_cursor p hkey]
        simp [jor, hbm]
      rw [paginateLoop_succ, hg]
      simp only [Bool.false_eq_true, if_false]
      rw [show (pages i0).2 = pageBody p from by rw [hp0]]
      rw [pageBody_extend p hkey merged]
      simp only []
      rw [show jor (dget (pageBody p) "Bookmark")
            (jor (dget (pageBody p) "Next") (dget (pageBody p) "bookmark")) = p.bm from by
          rw [pageBody_cursor p hkey]; simp [jor, hbm]]
      rw [if_pos (by rw [hbm]), if_pos (by rw [hbm])]
      have := ih f (i0 + 1) (merged ++ p.items) (bms ++ [p.bm]) p.bm
        (fun i q hq => by
          have h := horacle (i + 1) q (by simpa using hq)
          rwa [show i0 + (i + 1) = i0 + 1 + i from by omega] at h)
        (fun q hq => hgood q (List.mem_cons_of_mem p hq))
        (Nat.le_of_succ_le_succ hfuel)
      rw [this]
      rw [show i0 + 1 + tail.length = i0 + (tail.length + 1) from by omega]
      rw [show (p :: tail).length = tail.length + 1 from rfl, Nat.succ_sub_succ]
      rw [List.map_cons, List.map_cons, List.flatten_cons, List.getLastD_cons]
      rw [List.append_assoc merged, List.append_assoc bms, List.singleton_append]

/-- The two-page script of the repository's own pagination unit test. -/
def c6pages : Nat → Nat × Json := fun i =>
  if i = 0 then (200, .obj [("Items", .arr [.num 1, .num 2]), ("Bookmark", .str "b1")])
  else if i = 1 then (200, .obj [("Items", .arr [.num 3]), ("Bookmark", .null)])
  else (200, .null)

/-- C6: on pages with status below 400 and structured bodies the walker
accumulates all items in page order (reading either casing of the items
key), collects the truthy cursors seen (not the final absence), terminates
when the cursor is absent or the page cap is reached returning status 200,
and on the concrete two-page example returns items 1,2,3 with bookmarks
"b1". -/
theorem C6_pagination_accumulates :
    (∀ (ps : List PageScript) (pfin : PageScript) (pages : Nat → Nat × Json) (maxPages : Int),
      (∀ i p, (ps ++ [pfin]).get? i = some p → pages i = (p.code, pageBody p)) →
      (∀ p ∈ ps, goodPage p ∧ jsonTruthy p.bm = true) →
      goodPage pfin → jsonTruthy pfin.bm = false →
      ps.length + 1 ≤ maxPages.toNat →
      paginate_bookmark pages maxPages =
        some (.done 200 ((ps.map PageScript.items).flatten ++ pfin.items)
          (ps.map PageScript.bm) .null, ps.length + 1)) ∧
    (∀ (ps : List PageScript) (pages : Nat → Nat × Json) (maxPages : Int),
      (∀ i p, ps.get? i = some p → pages i = (p.code, pageBody p)) →
      (∀ p ∈ ps, goodPage p ∧ jsonTruthy p.bm = true) →
      maxPages.toNat = ps.length →
      paginate_bookmark pages maxPages =
        some (.done 200 (ps.map PageScript.items).flatten (ps.map PageScript.bm)
          ((ps.map PageScript.bm).getLastD .null), ps.length)) ∧
    paginate_bookmark c6pages 10 =
      some (.done 200 [.num 1, .num 2, .num 3] [.str "b1"] .null, 2) := by
  refine ⟨?_, ?_, by rfl⟩
  · intro ps pfin pages maxPages horacle hgood hfin hfalsy hcap
    have hwalk := pag_walk pages ps maxPages.toNat 0 [] [] .null
      (fun i q hq => by
        have hlt : i < ps.length := by
          rcases List.get?_eq_some.mp hq with ⟨h, _⟩
          exact h
        have := horacle i q (by rwa [List.get?_append hlt])
        simpa using this)
      hgood (by omega)
    rw [paginate_bookmark, hwalk]
    simp only [List.nil_append, Nat.zero_add]
    obtain ⟨f, hf⟩ : ∃ f, maxPages.toNat - ps.length = f + 1 := by
      refine ⟨maxPages.toNat - ps.length - 1, by omega⟩
    rw [hf]
    have hpfin : pages ps.length = (pfin.code, pageBody pfin) := by
      exact horacle ps.length pfin (List.get?_concat_length ps pfin)
    obtain ⟨hfc, hfk⟩ := hfin
    have hg : (decide (400 ≤ (pages ps.length).1) || !(pages ps.length).2.isObj) = false := by
      rw [hpfin]; simp [pageBody_isObj, Nat.not_le_of_lt hfc]
    rw [paginateLoop_succ, hg]
    simp only [Bool.false_eq_true, if_false]
    rw [show (pages ps.length).2 = pageBody pfin from by rw [hpfin]]
    rw [pageBody_extend pfin hfk]
    simp only []
    rw [show jor (dget (pageBody pfin) "Bookmark")
          (jor (dget (pageBody pfin) "Next") (dget (pageBody pfin) "bookmark")) = Json.null from by
        rw [pageBody_cursor pfin hfk]; simp [jor, hfalsy]]
    simp [jsonTruthy]
  · intro ps pages maxPages horacle hgood hlen
    have hwalk := pag_walk pages ps maxPages.toNat 0 [] [] .null
      (fun i q hq => by simpa using horacle i q hq)
      hgood (by omega)
    rw [paginate_bookmark, hwalk, hlen]
    simp [paginateLoop]

/-- C6, witness: the amended-free general theorem applied to the concrete
two-page script of the unit test. -/
theorem C6_witness :
    paginate_bookmark c6pages 10 =
      some (.done 200 [.num 1, .num 2, .num 3] [.str "b1"] .null, 2) :=
  C6_pagination_accumulates.1 [⟨200, "Items", [.num 1, .num 2], .str "b1"⟩]
    ⟨200, "Items", [.num 3], .null⟩ c6pages 10
    (fun i p h => by
      match i with
      | 0 => simp at h; rw [← h]; rfl
      | 1 => simp at h; rw [← h]; rfl
      | (n+2) => simp at h)
    (by intro p hp; simp at hp; subst hp; exact ⟨⟨by decide, Or.inl rfl⟩, rfl⟩)
    ⟨by decide, Or.inl rfl⟩ rfl (by decide)

/-- C7: a page with status at least 400 or a non-structured body stops the
walker at that page with the page's raw status and body, and no further
page request is issued (the request count is the failing page's index plus
one and pages beyond it are unconstrained). -/
theorem C7_pagination_early_termination :
    ∀ (ps : List PageScript) (bad : Nat × Json) (pages : Nat → Nat × Json) (maxPages : Int),
    (∀ i p, ps.get? i = some p → pages i = (p.code, pageBody p)) →
    pages ps.length = bad →
    (400 ≤ bad.1 ∨ bad.2.isObj = false) →
    (∀ p ∈ ps, goodPage p ∧ jsonTruthy p.bm = true) →
    ps.length + 1 ≤ maxPages.toNat →
    paginate_bookmark pages maxPages = some (.early bad.1 bad.2, ps.length + 1) := by
  intro ps bad pages maxPages horacle hbad hfail hgood hcap
  have hwalk := pag_walk pages ps maxPages.toNat 0 [] [] .null
    (fun i q hq => by simpa using horacle i q hq)
    hgood (by omega)
  rw [paginate_bookmark, hwalk]
  simp only [List.nil_append, Nat.zero_add]
  obtain ⟨f, hf⟩ : ∃ f, maxPages.toNat - ps.length = f + 1 := by
    refine ⟨maxPages.toNat - ps.length - 1, by omega⟩
  rw [hf, paginateLoop_succ, hbad]
  have hg : (decide (400 ≤ bad.1) || !bad.2.isObj) = true := by
    rcases hfail with h | h
    · simp [h]
    · simp [h]
  rw [hg]
  simp

/-- C7, witness: a first page with status 500 stops the walk at once with
the page's raw body, after a single request. -/
theorem C7_witness :
    paginate_bookmark (fun _ => (500, Json.str "boom")) 10 =
      some (.early 500 (.str "boom"), 1) :=
  C7_pagination_early_termination [] (500, .str "boom") (fun _ => (500, .str "boom")) 10
    (fun i p h => by simp at h) rfl (Or.inl (by omega)) (by simp) (by decide)

/-! Token refresh: step lemmas and the protocol theorems. -/

/-- The body a token attempt carries (transport errors carry their message
as text; only used for error notes). -/
def bodyOfAttempt : TokenAttempt → Json ⊕ String
  | .err m => .inr m
  | .resp _ ct jb tx => respBody ct jb tx

lemma refreshLoop_cons (net : Nat → TokenAttempt) (url : String) (rest : List String)
    (i : Nat) (e : Option RefreshErr) (tok : Json) :
    refreshLoop net (url :: rest) i e tok =
      match net i with
      | .err m => refreshLoop net rest (i + 1) (some (.requestError m)) tok
      | .resp st ct jb tx =>
        let body := respBody ct jb tx
        if st = 200 ∧ hasAccessToken body then
          (.ok (accessTokenOf body), accessTokenOf body, i + 1)
        else if st = 404 ∨ st = 410 ∨ st = 302 then
          refreshLoop net rest (i + 1) (some (.statusAt st url)) tok
        else if st = 400 then
          (.failed (some (.badRequest url body)), tok, i + 1)
        else
          refreshLoop net rest (i + 1) (some (.otherStatus st url body)) tok := rfl

lemma refreshLoop_cons_adv (net : Nat → TokenAttempt) (url : String) (rest : List String)
    (i : Nat) (e : Option RefreshErr) (tok : Json) (h : advances (net i)) :
    refreshLoop net (url :: rest) i e tok =
      refreshLoop net rest (i + 1) (some (advErr url (net i))) tok := by
  obtain ⟨h1, h2⟩ := h
  rw [refreshLoop_cons]
  cases hn : net i with
  | err m => simp [advErr]
  | resp st ct jb tx =>
    rw [hn] at h1 h2
    simp only [isAccept] at h1
    simp only [isStop400] at h2
    have hacc : ¬(st = 200 ∧ hasAccessToken (respBody ct jb tx) = true) := by
      rintro ⟨rfl, hx⟩
      simp [hx] at h1
    have h400 : ¬(st = 400) := by
      intro hst; subst hst; simp at h2
    by_cases hs : st = 404 ∨ st = 410 ∨ st = 302
    · simp [hacc, hs, advErr]
    · simp [hacc, hs, h400, advErr]

lemma refreshLoop_cons_accept (net : Nat → TokenAttempt) (url : String) (rest : List String)
    (i : Nat) (e : Option RefreshErr) (tok : Json) (h : isAccept (net i) = true) :
    refreshLoop net (url :: rest) i e tok =
      (.ok (acceptVal (net i)), acceptVal (net i), i + 1) := by
  rw [refreshLoop_cons]
  cases hn : net i with
  | err m => rw [hn] at h; simp [isAccept] at h
  | resp st ct jb tx =>
    rw [hn] at h
    simp only [isAccept, Bool.and_eq_true, beq_iff_eq] at h
    obtain ⟨h200, htok⟩ := h
    simp [h200, htok, acceptVal]

lemma refreshLoop_cons_400 (net : Nat → TokenAttempt) (url : String) (rest : List String)
    (i : Nat) (e : Option RefreshErr) (tok : Json)
    (h1 : isAccept (net i) = false) (h2 : isStop400 (net i) = true) :
    refreshLoop net (url :: rest) i e tok =
      (.failed (some (.badRequest url (bodyOfAttempt (net i)))), tok, i + 1) := by
  rw [refreshLoop_cons]
  cases hn : net i with
  | err m => rw [hn] at h2; simp [isStop400] at h2
  | resp st ct jb tx =>
    rw [hn] at h1 h2
    simp only [isStop400, beq_iff_eq] at h2
    subst h2
    simp only [isAccept, Bool.and_eq_true, beq_iff_eq] at h1
    simp [bodyOfAttempt]

lemma refreshLoop_exhaust (net : Nat → TokenAttempt) :
    ∀ (pre : List String) (ulast : String) (i0 : Nat) (e : Option RefreshErr) (tok : Json),
    (∀ j, j < pre.length + 1 → advances (net (i0 + j))) →
    refreshLoop net (pre ++ [ulast]) i0 e tok =
      (.failed (some (advErr ulast (net (i0 + pre.length)))), tok, i0 + pre.length + 1) := by
  intro pre
  induction pre with
  | nil =>
    intro ulast i0 e tok hadv
    have h := hadv 0 (by omega)
    rw [Nat.add_zero] at h
    rw [List.nil_append, refreshLoop_cons_adv net ulast [] i0 e tok h]
    simp [refreshLoop]
  | cons v vs ih =>
    intro ulast i0 e tok hadv
    have h0 := hadv 0 (by omega)
    rw [Nat.add_zero] at h0
    rw [List.cons_append, refreshLoop_cons_adv net v (vs ++ [ulast]) i0 e tok h0]
    have hrec := ih ulast (i0 + 1) (some (advErr v (net i0))) tok (fun j hj => by
      have h := hadv (j + 1) (by simp; omega)
      rwa [show i0 + (j + 1) = i0 + 1 + j from by omega] at h)
    rw [hrec, show i0 + 1 + vs.length = i0 + (v :: vs).length from by simp; omega]

lemma refreshLoop_accept_at (net : Nat → TokenAttempt) :
    ∀ (pre : List String) (u : String) (rest : List String) (i0 : Nat)
      (e : Option RefreshErr) (tok : Json),
    (∀ j, j < pre.length → advances (net (i0 + j))) →
    isAccept (net (i0 + pre.length)) = true →
    refreshLoop net (pre ++ u :: rest) i0 e tok =
      (.ok (acceptVal (net (i0 + pre.length))), acceptVal (net (i0 + pre.length)),
       i0 + pre.length + 1) := by
  intro pre
  induction pre with
  | nil =>
    intro u rest i0 e tok _ hacc
    rw [List.length_nil, Nat.add_zero] at hacc ⊢
    rw [List.nil_append, refreshLoop_cons_accept net u rest i0 e tok hacc]
  | cons v vs ih =>
    intro u rest i0 e tok hadv hacc
    have h0 := hadv 0 (by simp)
    rw [Nat.add_zero] at h0
    rw [List.cons_append, refreshLoop_cons_adv net v (vs ++ u :: rest) i0 e tok h0]
    have hrec := ih u rest (i0 + 1) (some (advErr v (net i0))) tok (fun j hj => by
      have h := hadv (j + 1) (by simp; omega)
      rwa [show i0 + (j + 1) = i0 + 1 + j from by omega] at h)
      (by rwa [show i0 + 1 + vs.length = i0 + (v :: vs).length from by simp; omega])
    rw [hrec, show i0 + 1 + vs.length = i0 + (v :: vs).length from by simp; omega]

lemma refreshLoop_400_at (net : Nat → TokenAttempt) :
    ∀ (pre : List String) (u : String) (rest : List String) (i0 : Nat)
      (e : Option RefreshErr) (tok : Json),
    (∀ j, j < pre.length → advances (net (i0 + j))) →
    isAccept (net (i0 + pre.length)) = false →
    isStop400 (net (i0 + pre.length)) = true →
    refreshLoop net (pre ++ u :: rest) i0 e tok =
      (.failed (some (.badRequest u (bodyOfAttempt (net (i0 + pre.length))))), tok,
       i0 + pre.length + 1) := by
  intro pre
  induction pre with
  | nil =>
    intro u rest i0 e tok _ hacc h400
    rw [List.length_nil, Nat.add_zero] at hacc h400 ⊢
    rw [List.nil_append, refreshLoop_cons_400 net u rest i0 e tok hacc h400]
  | cons v vs ih =>
    intro u rest i0 e tok hadv hacc h400
    have h0 := hadv 0 (by simp)
    rw [Nat.add_zero] at h0
    rw [List.cons_append, refreshLoop_cons_adv net v (vs ++ u :: rest) i0 e tok h0]
    have hrec := ih u rest (i0 + 1) (some (advErr v (net i0))) tok (fun j hj => by
      have h := hadv (j + 1) (by simp; omega)
      rwa [show i0 + (j + 1) = i0 + 1 + j from by omega] at h)
      (by rwa [show i0 + 1 + vs.length = i0 + (v :: vs).length from by simp; omega])
      (by rwa [show i0 + 1 + vs.length = i0 + (v :: vs).length from by simp; omega])
    rw [hrec, show i0 + 1 + vs.length = i0 + (v :: vs).length from by simp; omega]

/-- C3: the refresh sub-protocol tries the candidate endpoints in priority
order (explicit override first when configured, then the two host-relative
endpoints, then the fixed global endpoint); a 200 with a structured body
containing an access-token field is adopted and stops; a 400 stops as a
definitive rejection carrying the 400 note; any run in which every attempt
merely advances (404/410/302, other statuses, transport errors — all
recorded as the last error) exhausts the candidates and fails carrying the
last recorded error. -/
theorem C3_refresh_endpoint_protocol :
    (∀ o b, o ≠ "" → tokenCandidates (some o) b = o :: tokenCandidates none b) ∧
    (∀ b, tokenCandidates none b =
      [rstripSlash b ++ "/d2l/oauth2/token", rstripSlash b ++ "/d2l/auth/api/token",
       "https://auth.brightspace.com/core/connect/token"]) ∧
    (∀ (net : Nat → TokenAttempt) (ov : Option String) (b : String) (tok0 : Json)
        (pre : List String) (u : String) (rest : List String),
      tokenCandidates ov b = pre ++ u :: rest →
      (∀ j, j < pre.length → advances (net j)) →
      isAccept (net pre.length) = true →
      refresh_access_token net ov b tok0 =
        (.ok (acceptVal (net pre.length)), acceptVal (net pre.length), pre.length + 1)) ∧
    (∀ (net : Nat → TokenAttempt) (ov : Option String) (b : String) (tok0 : Json)
        (pre : List String) (u : String) (rest : List String),
      tokenCandidates ov b = pre ++ u :: rest →
      (∀ j, j < pre.length → advances (net j)) →
      isAccept (net pre.length) = false →
      isStop400 (net pre.length) = true →
      refresh_access_token net ov b tok0 =
        (.failed (some (.badRequest u (bodyOfAttempt (net pre.length)))), tok0,
         pre.length + 1)) ∧
    (∀ (net : Nat → TokenAttempt) (ov : Option String) (b : String) (tok0 : Json)
        (pre : List String) (ulast : String),
      tokenCandidates ov b = pre ++ [ulast] →
      (∀ j, j < pre.length + 1 → advances (net j)) →
      refresh_access_token net ov b tok0 =
        (.failed (some (advErr ulast (net pre.length))), tok0, pre.length + 1)) := by
  refine ⟨?_, fun _ => rfl, ?_, ?_, ?_⟩
  · intro o b ho
    simp [tokenCandidates, ho]
  · intro net ov b tok0 pre u rest hc hadv hacc
    rw [refresh_access_token, hc]
    have := refreshLoop_accept_at net pre u rest 0 none tok0
      (fun j hj => by simpa using hadv j hj) (by simpa using hacc)
    simpa using this
  · intro net ov b tok0 pre u rest hc hadv hacc h400
    rw [refresh_access_token, hc]
    have := refreshLoop_400_at net pre u rest 0 none tok0
      (fun j hj => by simpa using hadv j hj) (by simpa using hacc) (by simpa using h400)
    simpa using this
  · intro net ov b tok0 pre ulast hc hadv
    rw [refresh_access_token, hc]
    have := refreshLoop_exhaust net pre ulast 0 none tok0
      (fun j hj => by simpa using hadv j hj)
    simpa using this

/-- Token-endpoint oracle for the C3 witness: 404, then 410, then a 200
carrying an access token. -/
def c3net : Nat → TokenAttempt := fun i =>
  if i = 0 then .resp 404 "" none ""
  else if i = 1 then .resp 410 "" none ""
  else .resp 200 "application/json" (some (.obj [("access_token", .str "tok")])) ""

/-- C3, witness: with candidates answering 404, 410, then 200 with a token,
the sub-protocol adopts the third candidate's token after exactly three
attempts. -/
theorem C3_witness :
    refresh_access_token c3net none "https://example.com" (.str "old") =
      (.ok (.str "tok"), .str "tok", 3) :=
  C3_refresh_endpoint_protocol.2.2.1 c3net none "https://example.com" (.str "old")
    ["https://example.com/d2l/oauth2/token", "https://example.com/d2l/auth/api/token"]
    "https://auth.brightspace.com/core/connect/token" []
    (by rfl)
    (fun j hj => by
      match j, hj with
      | 0, _ => exact ⟨rfl, rfl⟩
      | 1, _ => exact ⟨rfl, rfl⟩)
    (by rfl)

lemma refreshLoop_change (net : Nat → TokenAttempt) :
    ∀ (urls : List String) (i0 : Nat) (e : Option RefreshErr) (tok : Json),
    (∃ v j, j < urls.length ∧ isAccept (net (i0 + j)) = true ∧ v = acceptVal (net (i0 + j)) ∧
      refreshLoop net urls i0 e tok = (.ok v, v, i0 + j + 1)) ∨
    ((refreshLoop net urls i0 e tok).2.1 = tok ∧
      ∃ e2, (refreshLoop net urls i0 e tok).1 = .failed e2) := by
  intro urls
  induction urls with
  | nil => intro i0 e tok; right; exact ⟨rfl, e, rfl⟩
  | cons url rest ih =>
    intro i0 e tok
    by_cases hacc : isAccept (net i0) = true
    · left
      refine ⟨acceptVal (net i0), 0, by simp, ?_, ?_, ?_⟩
      · rwa [Nat.add_zero]
      · rw [Nat.add_zero]
      · rw [refreshLoop_cons_accept net url rest i0 e tok hacc]
    · by_cases h400 : isStop400 (net i0) = true
      · right
        rw [refreshLoop_cons_400 net url rest i0 e tok
          (by simpa using hacc) h400]
        exact ⟨rfl, _, rfl⟩
      · have hadv : advances (net i0) :=
          ⟨by simpa using hacc, by simpa using h400⟩
        rw [refreshLoop_cons_adv net url rest i0 e tok hadv]
        rcases ih (i0 + 1) (some (advErr url (net i0))) tok with
          ⟨v, j, hj, ha, hv, heq⟩ | ⟨ht, e2, he⟩
        · left
          refine ⟨v, j + 1, by simp; omega, ?_, ?_, ?_⟩
          · rwa [show i0 + (j + 1) = i0 + 1 + j from by omega]
          · rwa [show i0 + (j + 1) = i0 + 1 + j from by omega]
          · rw [heq, show i0 + (j + 1) + 1 = i0 + 1 + j + 1 from by omega]
        · right
          exact ⟨ht, e2, he⟩

/-- C10: a failing refresh leaves the cached access token unchanged; the
cached token differs from its prior value only when some attempt was
accepted (HTTP 200 with a structured body carrying an access-token field),
and then it equals that attempt's token value. -/
theorem C10_cached_token_assignment :
    ∀ (net : Nat → TokenAttempt) (ov : Option String) (b : String) (tok0 : Json),
      (∀ e, (refresh_access_token net ov b tok0).1 = .failed e →
        (refresh_access_token net ov b tok0).2.1 = tok0) ∧
      ((refresh_access_token net ov b tok0).2.1 ≠ tok0 →
        ∃ v j, isAccept (net j) = true ∧ v = acceptVal (net j) ∧
          (refresh_access_token net ov b tok0).1 = .ok v ∧
          (refresh_access_token net ov b tok0).2.1 = v) := by
  intro net ov b tok0
  rcases refreshLoop_change net (tokenCandidates ov b) 0 none tok0 with
    ⟨v, j, _, ha, hv, heq⟩ | ⟨ht, e2, he⟩
  · constructor
    · intro e hfail
      rw [refresh_access_token, heq] at hfail
      simp at hfail
    · intro _
      refine ⟨v, j, by simpa using ha, by simpa using hv, ?_, ?_⟩
      · rw [refresh_access_token, heq]
      · rw [refresh_access_token, heq]
  · constructor
    · intro e _
      rw [refresh_access_token]
      exact ht
    · intro hneq
      exact absurd (by rw [refresh_access_token]; exact ht) hneq

/-- Token-endpoint oracle for the C10 witness: every candidate is missing. -/
def c10net : Nat → TokenAttempt := fun _ => .resp 404 "" none ""

/-- C10, witness: when every candidate 404s the refresh fails and the
cached token keeps its old value. -/
theorem C10_witness :
    (refresh_access_token c10net none "https://example.com" (.str "old")).2.1 = .str "old" :=
  (C10_cached_token_assignment c10net none "https://example.com" (.str "old")).1
    (some (.statusAt 404 "https://auth.brightspace.com/core/connect/token")) (by rfl)

/-! The retry loop of `request`: step lemma, attempt bound and outcome
lemmas. -/

lemma reqLoop_succ (env : ReqEnv) (fuel aN rN : Nat) (token : Json)
    (lastExc : Option String) (log : List Event) :
    reqLoop env (fuel + 1) aN rN token lastExc log =
      match authStep env rN token log with
      | none => (.authFailed, log, aN)
      | some (tok1, rN1, log1) =>
        match env.net aN with
        | .err m => reqLoop env fuel (aN + 1) rN1 tok1 (some m) log1
        | .resp r =>
          if r.status = 401 ∧ 1 ≤ fuel then
            match env.refresh rN1 with
            | none => (.authFailed, log1, aN + 1)
            | some v => reqLoop env fuel (aN + 1) (rN1 + 1) v lastExc (log1 ++ [.refreshed])
          else if r.status = 429 ∧ 1 ≤ fuel then
            reqLoop env fuel (aN + 1) rN1 tok1 lastExc
              (log1 ++ [.slept (retryDelay env.parse (hGet r.headers "Retry-After"))])
          else
            match classifyBody env.expectJson r with
            | some b => (.ok (r.status, b, r.headers), log1, aN + 1)
            | none => (.jsonError, log1, aN + 1) := rfl

lemma reqLoop_succ_authFail (env : ReqEnv) (fuel aN rN : Nat) (token : Json)
    (lastExc : Option String) (log : List Event)
    (h : authStep env rN token log = none) :
    reqLoop env (fuel + 1) aN rN token lastExc log = (.authFailed, log, aN) := by
  rw [reqLoop_succ, h]

lemma reqLoop_succ_err (env : ReqEnv) (fuel aN rN : Nat) (token : Json)
    (lastExc : Option String) (log : List Event) (tok1 : Json) (rN1 : Nat)
    (log1 : List Event) (m : String)
    (hA : authStep env rN token log = some (tok1, rN1, log1))
    (hn : env.net aN = .err m) :
    reqLoop env (fuel + 1) aN rN token lastExc log =
      reqLoop env fuel (aN + 1) rN1 tok1 (some m) log1 := by
  simp only [reqLoop_succ, hA, hn]

lemma reqLoop_succ_401_ok (env : ReqEnv) (fuel aN rN : Nat) (token : Json)
    (lastExc : Option String) (log : List Event) (tok1 : Json) (rN1 : Nat)
    (log1 : List Event) (r : HResp) (v : Json)
    (hA : authStep env rN token log = some (tok1, rN1, log1))
    (hn : env.net aN = .resp r) (h401 : r.status = 401) (hf : 1 ≤ fuel)
    (hv : env.refresh rN1 = some v) :
    reqLoop env (fuel + 1) aN rN token lastExc log =
      reqLoop env fuel (aN + 1) (rN1 + 1) v lastExc (log1 ++ [.refreshed]) := by
  simp only [reqLoop_succ, hA, hn]
  rw [if_pos ⟨h401, hf⟩, hv]

lemma reqLoop_succ_401_fail (env : ReqEnv) (fuel aN rN : Nat) (token : Json)
    (lastExc : Option String) (log : List Event) (tok1 : Json) (rN1 : Nat)
    (log1 : List Event) (r : HResp)
    (hA : authStep env rN token log = some (tok1, rN1, log1))
    (hn : env.net aN = .resp r) (h401 : r.status = 401) (hf : 1 ≤ fuel)
    (hv : env.refresh rN1 = none) :
    reqLoop env (fuel + 1) aN rN token lastExc log = (.authFailed, log1, aN + 1) := by
  simp only [reqLoop_succ, hA, hn]
  rw [if_pos ⟨h401, hf⟩, hv]

lemma reqLoop_succ_429 (env : ReqEnv) (fuel aN rN : Nat) (token : Json)
    (lastExc : Option String) (log : List Event) (tok1 : Json) (rN1 : Nat)
    (log1 : List Event) (r : HResp)
    (hA : authStep env rN token log = some (tok1, rN1, log1))
    (hn : env.net aN = .resp r) (h429 : r.status = 429) (hf : 1 ≤ fuel) :
    reqLoop env (fuel + 1) aN rN token lastExc log =
      reqLoop env fuel (aN + 1) rN1 tok1 lastExc
        (log1 ++ [.slept (retryDelay env.parse (hGet r.headers "Retry-After"))]) := by
  simp only [reqLoop_succ, hA, hn]
  rw [if_neg (by simp [h429]), if_pos ⟨h429, hf⟩]

lemma reqLoop_succ_return (env : ReqEnv) (fuel aN rN : Nat) (token : Json)
    (lastExc : Option String) (log : List Event) (tok1 : Json) (rN1 : Nat)
    (log1 : List Event) (r : HResp) (b : Body)
    (hA : authStep env rN token log = some (tok1, rN1, log1))
    (hn : env.net aN = .resp r)
    (hne401 : ¬(r.status = 401 ∧ 1 ≤ fuel)) (hne429 : ¬(r.status = 429 ∧ 1 ≤ fuel))
    (hcls : classifyBody env.expectJson r = some b) :
    reqLoop env (fuel + 1) aN rN token lastExc log =
      (.ok (r.status, b, r.headers), log1, aN + 1) := by
  simp only [reqLoop_succ, hA, hn]
  rw [if_neg hne401, if_neg hne429, hcls]

lemma reqLoop_succ_jsonError (env : ReqEnv) (fuel aN rN : Nat) (token : Json)
    (lastExc : Option String) (log : List Event) (tok1 : Json) (rN1 : Nat)
    (log1 : List Event) (r : HResp)
    (hA : authStep env rN token log = some (tok1, rN1, log1))
    (hn : env.net aN = .resp r)
    (hne401 : ¬(r.status = 401 ∧ 1 ≤ fuel)) (hne429 : ¬(r.status = 429 ∧ 1 ≤ fuel))
    (hcls : classifyBody env.expectJson r = none) :
    reqLoop env (fuel + 1) aN rN token lastExc log = (.jsonError, log1, aN + 1) := by
  simp only [reqLoop_succ, hA, hn]
  rw [if_neg hne401, if_neg hne429, hcls]

lemma reqLoop_attempts (env : ReqEnv) :
    ∀ (fuel aN rN : Nat) (token : Json) (lastExc : Option String) (log : List Event),
    (reqLoop env fuel aN rN token lastExc log).2.2 ≤ aN + fuel := by
  intro fuel
  induction fuel with
  | zero => intro aN rN token lastExc log; cases lastExc <;> simp [reqLoop]
  | succ f ih =>
    intro aN rN token lastExc log
    cases hA : authStep env rN token log with
    | none =>
      rw [reqLoop_succ_authFail env f aN rN token lastExc log hA]
      show aN ≤ aN + (f + 1)
      omega
    | some t =>
      obtain ⟨tok1, rN1, log1⟩ := t
      cases hn : env.net aN with
      | err m =>
        rw [reqLoop_succ_err env f aN rN token lastExc log tok1 rN1 log1 m hA hn]
        have := ih (aN + 1) rN1 tok1 (some m) log1
        omega
      | resp r =>
        by_cases h1 : r.status = 401 ∧ 1 ≤ f
        · cases hv : env.refresh rN1 with
          | none =>
            rw [reqLoop_succ_401_fail env f aN rN token lastExc log tok1 rN1 log1 r hA hn
              h1.1 h1.2 hv]
            show aN + 1 ≤ aN + (f + 1)
            omega
          | some v =>
            rw [reqLoop_succ_401_ok env f aN rN token lastExc log tok1 rN1 log1 r v hA hn
              h1.1 h1.2 hv]
            have := ih (aN + 1) (rN1 + 1) v lastExc (log1 ++ [.refreshed])
            omega
        · by_cases h2 : r.status = 429 ∧ 1 ≤ f
          · rw [reqLoop_succ_429 env f aN rN token lastExc log tok1 rN1 log1 r hA hn
              h2.1 h2.2]
            have := ih (aN + 1) rN1 tok1 lastExc
              (log1 ++ [.slept (retryDelay env.parse (hGet r.headers "Retry-After"))])
            omega
          · cases hc : classifyBody env.expectJson r with
            | some b =>
              rw [reqLoop_succ_return env f aN rN token lastExc log tok1 rN1 log1 r b hA hn
                h1 h2 hc]
              show aN + 1 ≤ aN + (f + 1)
              omega
            | none =>
              rw [reqLoop_succ_jsonError env f aN rN token lastExc log tok1 rN1 log1 r hA hn
                h1 h2 hc]
              show aN + 1 ≤ aN + (f + 1)
              omega

lemma reqLoop_ne_internal_of_exc (env : ReqEnv) :
    ∀ (fuel aN rN : Nat) (token : Json) (m : String) (log : List Event),
    (reqLoop env fuel aN rN token (some m) log).1 ≠ .internal := by
  intro fuel
  induction fuel with
  | zero => intro aN rN token m log; simp [reqLoop]
  | succ f ih =>
    intro aN rN token m log
    cases hA : authStep env rN token log with
    | none =>
      rw [reqLoop_succ_authFail env f aN rN token (some m) log hA]
      simp
    | some t =>
      obtain ⟨tok1, rN1, log1⟩ := t
      cases hn : env.net aN with
      | err m2 =>
        rw [reqLoop_succ_err env f aN rN token (some m) log tok1 rN1 log1 m2 hA hn]
        exact ih (aN + 1) rN1 tok1 m2 log1
      | resp r =>
        by_cases h1 : r.status = 401 ∧ 1 ≤ f
        · cases hv : env.refresh rN1 with
          | none =>
            rw [reqLoop_succ_401_fail env f aN rN token (some m) log tok1 rN1 log1 r hA hn
              h1.1 h1.2 hv]
            simp
          | some v =>
            rw [reqLoop_succ_401_ok env f aN rN token (some m) log tok1 rN1 log1 r v hA hn
              h1.1 h1.2 hv]
            exact ih (aN + 1) (rN1 + 1) v m (log1 ++ [.refreshed])
        · by_cases h2 : r.status = 429 ∧ 1 ≤ f
          · rw [reqLoop_succ_429 env f aN rN token (some m) log tok1 rN1 log1 r hA hn
              h2.1 h2.2]
            exact ih (aN + 1) rN1 tok1 m
              (log1 ++ [.slept (retryDelay env.parse (hGet r.headers "Retry-After"))])
          · cases hc : classifyBody env.expectJson r with
            | some b =>
              rw [reqLoop_succ_return env f aN rN token (some m) log tok1 rN1 log1 r b hA hn
                h1 h2 hc]
              simp
            | none =>
              rw [reqLoop_succ_jsonError env f aN rN token (some m) log tok1 rN1 log1 r hA hn
                h1 h2 hc]
              simp

lemma reqLoop_ne_internal_none (env : ReqEnv) :
    ∀ (fuel aN rN : Nat) (token : Json) (log : List Event),
    1 ≤ fuel →
    (reqLoop env fuel aN rN token none log).1 ≠ .internal := by
  intro fuel
  induction fuel with
  | zero => intro _ _ _ _ h; omega
  | succ f ih =>
    intro aN rN token log _
    cases hA : authStep env rN token log with
    | none =>
      rw [reqLoop_succ_authFail env f aN rN token none log hA]
      simp
    | some t =>
      obtain ⟨tok1, rN1, log1⟩ := t
      cases hn : env.net aN with
      | err m2 =>
        rw [reqLoop_succ_err env f aN rN token none log tok1 rN1 log1 m2 hA hn]
        exact reqLoop_ne_internal_of_exc env f (aN + 1) rN1 tok1 m2 log1
      | resp r =>
        by_cases h1 : r.status = 401 ∧ 1 ≤ f
        · cases hv : env.refresh rN1 with
          | none =>
            rw [reqLoop_succ_401_fail env f aN rN token none log tok1 rN1 log1 r hA hn
              h1.1 h1.2 hv]
            simp
          | some v =>
            rw [reqLoop_succ_401_ok env f aN rN token none log tok1 rN1 log1 r v hA hn
              h1.1 h1.2 hv]
            exact ih (aN + 1) (rN1 + 1) v (log1 ++ [.refreshed]) h1.2
        · by_cases h2 : r.status = 429 ∧ 1 ≤ f
          · rw [reqLoop_succ_429 env f aN rN token none log tok1 rN1 log1 r hA hn
              h2.1 h2.2]
            exact ih (aN + 1) rN1 tok1
              (log1 ++ [.slept (retryDelay env.parse (hGet r.headers "Retry-After"))]) h2.2
          · cases hc : classifyBody env.expectJson r with
            | some b =>
              rw [reqLoop_succ_return env f aN rN token none log tok1 rN1 log1 r b hA hn
                h1 h2 hc]
              simp
            | none =>
              rw [reqLoop_succ_jsonError env f aN rN token none log tok1 rN1 log1 r hA hn
                h1 h2 hc]
              simp

lemma reqLoop_ok_of_good (env : ReqEnv)
    (HN : ∀ i, ∃ r, env.net i = .resp r ∧ (classifyBody env.expectJson r).isSome = true)
    (HR : ∀ j, ∃ v, env.refresh j = some v ∧ jsonTruthy v = true) :
    ∀ (fuel aN rN : Nat) (token : Json) (lastExc : Option String) (log : List Event),
    1 ≤ fuel →
    ∃ k r b, env.net k = .resp r ∧ classifyBody env.expectJson r = some b ∧
      (reqLoop env fuel aN rN token lastExc log).1 = .ok (r.status, b, r.headers) := by
  intro fuel
  induction fuel with
  | zero => intro _ _ _ _ _ h; omega
  | succ f ih =>
    intro aN rN token lastExc log _
    have hauth : ∃ tok1 rN1 log1, authStep env rN token log = some (tok1, rN1, log1) := by
      by_cases ht : jsonTruthy token = true
      · exact ⟨token, rN, log, by simp [authStep, ht]⟩
      · obtain ⟨v, hv, _⟩ := HR rN
        refine ⟨v, rN + 1, log ++ [.refreshed], ?_⟩
        rw [authStep, if_neg (by simp [ht]), hv]
    obtain ⟨tok1, rN1, log1, hA⟩ := hauth
    obtain ⟨r, hr, hcs⟩ := HN aN
    by_cases h1 : r.status = 401 ∧ 1 ≤ f
    · obtain ⟨v2, hv2, _⟩ := HR rN1
      rw [reqLoop_succ_401_ok env f aN rN token lastExc log tok1 rN1 log1 r v2 hA hr
        h1.1 h1.2 hv2]
      exact ih (aN + 1) (rN1 + 1) v2 lastExc (log1 ++ [.refreshed]) h1.2
    · by_cases h2 : r.status = 429 ∧ 1 ≤ f
      · rw [reqLoop_succ_429 env f aN rN token lastExc log tok1 rN1 log1 r hA hr
          h2.1 h2.2]
        exact ih (aN + 1) rN1 tok1 lastExc
          (log1 ++ [.slept (retryDelay env.parse (hGet r.headers "Retry-After"))]) h2.2
      · obtain ⟨b, hb⟩ := Option.isSome_iff_exists.mp hcs
        rw [reqLoop_succ_return env f aN rN token lastExc log tok1 rN1 log1 r b hA hr
          h1 h2 hb]
        exact ⟨aN, r, b, hr, hb, rfl⟩

/-- Headers used by the concrete retry scripts: a textual content type and
no Retry-After. -/
def c2hdrs : List (String × String) := [("content-type", "text/plain")]

/-- A textual response with the given status. -/
def c2resp (st : Nat) : HResp := ⟨st, c2hdrs, none, "late", []⟩

/-- Network script for the shared-budget run: 401, then 429, then 401. -/
def c2net : Nat → Attempt := fun i =>
  if i = 0 then .resp (c2resp 401) else if i = 1 then .resp (c2resp 429) else .resp (c2resp 401)

/-- Environment with `max_retries = 2` over the mixed 401/429 script. -/
def c2env : ReqEnv := ⟨c2net, fun _ => some (.str "t"), fun _ => none, true, 2⟩

/-- C2: a 401 with retry budget left refreshes the credential and retries
the same request with no sleep, so a single 401 followed by a success
returns that success without surfacing the 401; a 429 sleeps Retry-After
seconds when that header is present, non-empty and parseable, else 1.0
second, then retries; attempts are bounded by the one cumulative
`max_retries` counter shared by both kinds, and with `max_retries = 2` a
401, a 429 and a final 401 consume the whole budget so the third response
is returned after exactly three attempts. -/
theorem C2_retry_policy :
    (∀ (env : ReqEnv) (path : String) (tok0 v : Json) (r r2 : HResp) (b : Body),
      strStartsWith path "/" = true →
      1 ≤ env.maxRetries →
      jsonTruthy tok0 = true →
      env.net 0 = .resp r → r.status = 401 →
      env.refresh 0 = some v → jsonTruthy v = true →
      env.net 1 = .resp r2 → r2.status ≠ 401 → r2.status ≠ 429 →
      classifyBody env.expectJson r2 = some b →
      request env path tok0 = (.ok (r2.status, b, r2.headers), [.refreshed], 2)) ∧
    (∀ (env : ReqEnv) (path : String) (tok0 : Json) (r r2 : HResp) (b : Body)
        (s : String) (d : Rat),
      strStartsWith path "/" = true →
      1 ≤ env.maxRetries →
      jsonTruthy tok0 = true →
      env.net 0 = .resp r → r.status = 429 →
      hGet r.headers "Retry-After" = some s → s ≠ "" → env.parse s = some d →
      env.net 1 = .resp r2 → r2.status ≠ 401 → r2.status ≠ 429 →
      classifyBody env.expectJson r2 = some b →
      request env path tok0 = (.ok (r2.status, b, r2.headers), [.slept d], 2)) ∧
    (∀ (env : ReqEnv) (path : String) (tok0 : Json) (r r2 : HResp) (b : Body),
      strStartsWith path "/" = true →
      1 ≤ env.maxRetries →
      jsonTruthy tok0 = true →
      env.net 0 = .resp r → r.status = 429 →
      hGet r.headers "Retry-After" = none →
      env.net 1 = .resp r2 → r2.status ≠ 401 → r2.status ≠ 429 →
      classifyBody env.expectJson r2 = some b →
      request env path tok0 = (.ok (r2.status, b, r2.headers), [.slept 1], 2)) ∧
    (∀ (env : ReqEnv) (path : String) (tok0 : Json),
      (request env path tok0).2.2 ≤ (env.maxRetries + 1).toNat) ∧
    request c2env "/x" (.str "t0") =
      (.ok (401, .text "late", c2hdrs), [.refreshed, .slept 1], 3) := by
  refine ⟨?_, ?_, ?_, ?_, by rfl⟩
  · intro env path tok0 v r r2 b hpath hmax htok hn0 h401 hr0 hvt hn1 hs1 hs2 hcls
    rw [request, if_pos hpath]
    obtain ⟨k, hk⟩ : ∃ k, (env.maxRetries + 1).toNat = (k + 1) + 1 :=
      ⟨(env.maxRetries + 1).toNat - 2, by omega⟩
    rw [hk]
    have hA1 : authStep env 0 tok0 [] = some (tok0, 0, []) := by simp [authStep, htok]
    rw [reqLoop_succ_401_ok env (k + 1) 0 0 tok0 none [] tok0 0 [] r v hA1 hn0 h401
      (by omega) hr0]
    simp only [List.nil_append, Nat.zero_add]
    have hA2 : authStep env 1 v [.refreshed] = some (v, 1, [.refreshed]) := by
      simp [authStep, hvt]
    rw [reqLoop_succ_return env k 1 1 v none [.refreshed] v 1 [.refreshed] r2 b hA2 hn1
      (by rintro ⟨h, _⟩; exact hs1 h) (by rintro ⟨h, _⟩; exact hs2 h) hcls]
  · intro env path tok0 r r2 b s d hpath hmax htok hn0 h429 hra hs hparse hn1 hs1 hs2 hcls
    rw [request, if_pos hpath]
    obtain ⟨k, hk⟩ : ∃ k, (env.maxRetries + 1).toNat = (k + 1) + 1 :=
      ⟨(env.maxRetries + 1).toNat - 2, by omega⟩
    rw [hk]
    have hA1 : authStep env 0 tok0 [] = some (tok0, 0, []) := by simp [authStep, htok]
    rw [reqLoop_succ_429 env (k + 1) 0 0 tok0 none [] tok0 0 [] r hA1 hn0 h429 (by omega)]
    rw [hra]
    have hd : retryDelay env.parse (some s) = d := by simp [retryDelay, hs, hparse]
    rw [hd]
    simp only [List.nil_append, Nat.zero_add]
    have hA2 : authStep env 0 tok0 [.slept d] = some (tok0, 0, [.slept d]) := by
      simp [authStep, htok]
    rw [reqLoop_succ_return env k 1 0 tok0 none [.slept d] tok0 0 [.slept d] r2 b hA2 hn1
      (by rintro ⟨h, _⟩; exact hs1 h) (by rintro ⟨h, _⟩; exact hs2 h) hcls]
  · intro env path tok0 r r2 b hpath hmax htok hn0 h429 hra hn1 hs1 hs2 hcls
    rw [request, if_pos hpath]
    obtain ⟨k, hk⟩ : ∃ k, (env.maxRetries + 1).toNat = (k + 1) + 1 :=
      ⟨(env.maxRetries + 1).toNat - 2, by omega⟩
    rw [hk]
    have hA1 : authStep env 0 tok0 [] = some (tok0, 0, []) := by simp [authStep, htok]
    rw [reqLoop_succ_429 env (k + 1) 0 0 tok0 none [] tok0 0 [] r hA1 hn0 h429 (by omega)]
    rw [hra]
    have hd : retryDelay env.parse none = 1 := rfl
    rw [hd]
    simp only [List.nil_append, Nat.zero_add]
    have hA2 : authStep env 0 tok0 [.slept 1] = some (tok0, 0, [.slept 1]) := by
      simp [authStep, htok]
    rw [reqLoop_succ_return env k 1 0 tok0 none [.slept 1] tok0 0 [.slept 1] r2 b hA2 hn1
      (by rintro ⟨h, _⟩; exact hs1 h) (by rintro ⟨h, _⟩; exact hs2 h) hcls]
  · intro env path tok0
    by_cases h : strStartsWith path "/" = true
    · rw [request, if_pos h]
      have := reqLoop_attempts env (env.maxRetries + 1).toNat 0 0 tok0 none []
      omega
    · rw [request, if_neg h]
      simp

/-- Network script for the C2 witness: one 401, then a 200. -/
def c2wnet : Nat → Attempt := fun i =>
  if i = 0 then .resp (c2resp 401) else .resp ⟨200, c2hdrs, none, "okay", []⟩

/-- Environment for the C2 witness. -/
def c2wenv : ReqEnv := ⟨c2wnet, fun _ => some (.str "t"), fun _ => none, true, 3⟩

/-- C2, witness: one simulated 401 followed by a success returns the
success after one refresh and no sleep. -/
theorem C2_witness :
    request c2wenv "/w" (.str "t0") = (.ok (200, .text "okay", c2hdrs), [.refreshed], 2) :=
  C2_retry_policy.1 c2wenv "/w" (.str "t0") (.str "t") (c2resp 401)
    ⟨200, c2hdrs, none, "okay", []⟩ (.text "okay")
    (by rfl) (by decide) (by rfl) rfl rfl rfl (by rfl) rfl (by decide) (by decide) (by rfl)

/-- C5: with a non-negative retry budget the trailing `RuntimeError`
fall-through of the loop is unreachable — `request` never reports the
internal outcome — and when every attempt completes as a well-formed
response and every refresh succeeds, the call returns some received
response as a `(status, body, headers)` triple whatever its status
(including the final 401/429 when the budget is exhausted), raising
nothing. -/
theorem C5_no_status_raise :
    (∀ (env : ReqEnv) (path : String) (tok0 : Json),
      0 ≤ env.maxRetries → (request env path tok0).1 ≠ .internal) ∧
    (∀ (env : ReqEnv) (path : String) (tok0 : Json),
      strStartsWith path "/" = true → 0 ≤ env.maxRetries →
      (∀ i, ∃ r, env.net i = .resp r ∧ (classifyBody env.expectJson r).isSome = true) →
      (∀ j, ∃ v, env.refresh j = some v ∧ jsonTruthy v = true) →
      ∃ k r b, env.net k = .resp r ∧ classifyBody env.expectJson r = some b ∧
        (request env path tok0).1 = .ok (r.status, b, r.headers)) := by
  constructor
  · intro env path tok0 hmax
    by_cases h : strStartsWith path "/" = true
    · rw [request, if_pos h]
      exact reqLoop_ne_internal_none env (env.maxRetries + 1).toNat 0 0 tok0 [] (by omega)
    · rw [request, if_neg h]
      simp
  · intro env path tok0 hpath hmax HN HR
    rw [request, if_pos hpath]
    exact reqLoop_ok_of_good env HN HR (env.maxRetries + 1).toNat 0 0 tok0 none [] (by omega)

/-- Environment for the C5 witness: the backend always answers 404 with a
textual body. -/
def c5env : ReqEnv :=
  ⟨fun _ => .resp ⟨404, c2hdrs, none, "late", []⟩, fun _ => some (.str "t"),
   fun _ => none, true, 3⟩

/-- C5, witness: a run of completed 404 responses neither reaches the
internal fall-through nor raises — the 404 triple is returned. -/
theorem C5_witness :
    (request c5env "/x" (.str "t")).1 ≠ .internal ∧
    (∃ k r b, c5env.net k = .resp r ∧ classifyBody c5env.expectJson r = some b ∧
      (request c5env "/x" (.str "t")).1 = .ok (r.status, b, r.headers)) :=
  ⟨C5_no_status_raise.1 c5env "/x" (.str "t") (by decide),
   C5_no_status_raise.2 c5env "/x" (.str "t") (by rfl) (by decide)
     (fun _ => ⟨⟨404, c2hdrs, none, "late", []⟩, rfl, rfl⟩)
     (fun _ => ⟨.str "t", rfl, rfl⟩)⟩

end BrightspaceMCP
